import Mathlib

/-
Verification of the OSD rendering and projection engine.

This file gives a shallow embedding of the engine's data model and operations:
the framebuffer with its single bounds-checked blend primitive, the primitive
rasterizer (filled/outline circles and filled angular wedges from
src/rendering/primitives.c), the celestial coordinate transform
(src/utils/celestial_position.c), the navball lookup-table builder, the
equirectangular sphere-to-texture projection and the navball render guard
(widgets/navball.c), and the per-frame plugin entry point (src/osd_plugin.c).

Modelling conventions:
  * C `float`/`double` values are embedded as real numbers; trigonometric and
    square-root library calls become their exact real counterparts.  Where a
    claim's verdict depends on the value of the `M_PI` macro the macro's source
    literal is kept exactly (see `Celestial.M_PI`); elsewhere the constant is
    idealized to `Real.pi`.
  * C `int` values are embedded as `ℤ`; the `(int)` cast of a floating value is
    `c_trunc` (truncation toward zero).  Packed 32-bit 0xAABBGGRR colors are
    embedded as `ℕ`.
  * `for` loops over pixel rectangles become folds over explicit index lists
    (`intRange`); a `continue`-guarded loop body becomes a conditional blend.
  * External collaborators that the spec treats as opaque services (font/SVG
    rasterization, protobuf decoding, the cglm quaternion library, and source
    files whose implementations are not part of this repository) are either
    modelled from the spec's contract (marked `Modelled from the spec:`) or
    abstracted as explicit service parameters.
-/

-- ════════════════════════════════════════════════════════════
-- Color packing (0xAABBGGRR: alpha, blue, green, red from msb to lsb)
-- ════════════════════════════════════════════════════════════

/-- Red channel of a packed 0xAABBGGRR color (least significant byte). -/
def chR (c : ℕ) : ℕ := c % 256

/-- Green channel of a packed 0xAABBGGRR color. -/
def chG (c : ℕ) : ℕ := c / 256 % 256

/-- Blue channel of a packed 0xAABBGGRR color. -/
def chB (c : ℕ) : ℕ := c / 65536 % 256

/-- Alpha channel of a packed 0xAABBGGRR color (most significant byte). -/
def chA (c : ℕ) : ℕ := c / 16777216 % 256

/-- Pack RGBA channels into a 0xAABBGGRR color. -/
def packRGBA (r g b a : ℕ) : ℕ := r + g * 256 + b * 65536 + a * 16777216

/-- Modelled from the spec: the framebuffer implementation (core/framebuffer.c)
is not under src/ (only its header is included and its callers are present).
Per the spec the blend composites `color` over the existing pixel using standard
over-compositing, `out = src·srcA + dst·(1-srcA)` per channel and alpha
similarly, with straight (non-premultiplied) alpha in [0,255]; channel
arithmetic is discretized over 0..255. -/
def blendColor (src dst : ℕ) : ℕ :=
  let sa := chA src
  packRGBA ((chR src * sa + chR dst * (255 - sa)) / 255)
    ((chG src * sa + chG dst * (255 - sa)) / 255)
    ((chB src * sa + chB dst * (255 - sa)) / 255)
    ((sa * 255 + chA dst * (255 - sa)) / 255)

/-- The framebuffer: a fixed-size RGBA pixel array plus width/height
(core/framebuffer.h).  The row-major pixel array is embedded as a function from
integer coordinates to packed colors. -/
structure framebuffer_t where
  width : ℤ
  height : ℤ
  pixels : ℤ → ℤ → ℕ

/-- Modelled from the spec: `framebuffer_blend_pixel` (core/framebuffer.c, not
under src/) is the single bounds-checked mutation primitive.  It composites
`color` over the existing pixel via `blendColor` and is a silent no-op when
`(x,y)` lies outside `[0,width) × [0,height)`. -/
def framebuffer_blend_pixel (fb : framebuffer_t) (x y : ℤ) (color : ℕ) :
    framebuffer_t :=
  if 0 ≤ x ∧ x < fb.width ∧ 0 ≤ y ∧ y < fb.height then
    { fb with
      pixels := fun px py =>
        if px = x ∧ py = y then blendColor color (fb.pixels x y)
        else fb.pixels px py }
  else fb

/-- `draw_pixel` (primitives.c lines 12-17): delegates to the framebuffer's
bounds-checked blend function. -/
def draw_pixel (fb : framebuffer_t) (x y : ℤ) (color : ℕ) : framebuffer_t :=
  framebuffer_blend_pixel fb x y color

-- ════════════════════════════════════════════════════════════
-- C loop index ranges and float-to-int casts
-- ════════════════════════════════════════════════════════════

/-- The index sequence `a, a+1, ..., b` of a C `for (i = a; i <= b; i++)`
loop. -/
def intRange (a b : ℤ) : List ℤ :=
  (List.range (b + 1 - a).toNat).map fun i : ℕ => a + (i : ℤ)

/-- The C cast `(int)x` of a floating value: truncation toward zero. -/
noncomputable def c_trunc (x : ℝ) : ℤ := if 0 ≤ x then ⌊x⌋ else ⌈x⌉

open Real

open scoped Classical

-- ════════════════════════════════════════════════════════════
-- Primitive rasterizer (primitives.c)
-- ════════════════════════════════════════════════════════════

/-- The shared shape of the rasterizer's pixel scans: the nested
`for (y) for (x)` loops of primitives.c that blend `color` at
`(cx + x, cy + y)` for every index pair satisfying the shape's membership
condition, in row-major order.  Inner loop over a row. -/
noncomputable def rowScan (cx cy : ℤ) (cond : ℤ → ℤ → Prop) (color : ℕ)
    (y : ℤ) (fb : framebuffer_t) (xs : List ℤ) : framebuffer_t :=
  xs.foldl
    (fun fb2 x =>
      if cond x y then draw_pixel fb2 (cx + x) (cy + y) color else fb2)
    fb

/-- Outer loop of the rasterizer's pixel scans (rows of `rowScan`). -/
noncomputable def pixelScan (fb : framebuffer_t) (cx cy : ℤ)
    (xs ys : List ℤ) (cond : ℤ → ℤ → Prop) (color : ℕ) : framebuffer_t :=
  ys.foldl (fun fb1 y => rowScan cx cy cond color y fb1 xs) fb

/-- `draw_filled_circle` (primitives.c lines 77-95): scans the bounding box of
the truncated radius and blends every pixel with `x² + y² ≤ r²`. -/
noncomputable def draw_filled_circle (fb : framebuffer_t) (cx cy : ℤ)
    (radius : ℝ) (color : ℕ) : framebuffer_t :=
  let r := c_trunc radius
  pixelScan fb cx cy (intRange (-r) r) (intRange (-r) r)
    (fun x y => x * x + y * y ≤ r * r) color

/-- `draw_circle_outline` (primitives.c lines 97-128): blends every pixel of
the annulus between the truncated inner radius (clamped at 0) and the truncated
outer radius. -/
noncomputable def draw_circle_outline (fb : framebuffer_t) (cx cy : ℤ)
    (radius : ℝ) (color : ℕ) (thickness : ℝ) : framebuffer_t :=
  let r_outer := c_trunc (radius + thickness / 2)
  let r_inner0 := c_trunc (radius - thickness / 2)
  let r_inner := if r_inner0 < 0 then 0 else r_inner0
  pixelScan fb cx cy (intRange (-r_outer) r_outer) (intRange (-r_outer) r_outer)
    (fun x y =>
      r_inner * r_inner ≤ x * x + y * y ∧ x * x + y * y ≤ r_outer * r_outer)
    color

/-- `deg_to_radf` (primitives.c lines 181-185). -/
noncomputable def deg_to_radf (degrees : ℝ) : ℝ := degrees * (π / 180)

/-- `compass_to_math_rad` (primitives.c lines 190-197): converts the widget
angle convention (0°=up, clockwise) to standard math radians via
`90° - compass`. -/
noncomputable def compass_to_math_rad (compass_deg : ℝ) : ℝ :=
  deg_to_radf (90 - compass_deg)

/-- The C library function `atan2(y, x)`: the angle of the point `(x, y)` in
`(-π, π]`, with `atan2(0, 0) = 0`. -/
noncomputable def atan2 (y x : ℝ) : ℝ :=
  if 0 < x then Real.arctan (y / x)
  else if x < 0 then
    if 0 ≤ y then Real.arctan (y / x) + π else Real.arctan (y / x) - π
  else if 0 < y then π / 2 else if y < 0 then -(π / 2) else 0

/-- Closed form of the two angle-normalization `while` loops of
`draw_wedge_filled` (primitives.c lines 264-272): repeatedly adding or
subtracting `2π` until the value lies in `[0, 2π)` computes the remainder
`x - 2π·⌊x/(2π)⌋`. -/
noncomputable def norm2pi (x : ℝ) : ℝ := x - 2 * π * ⌊x / (2 * π)⌋

/-- The per-pixel wedge membership test of `draw_wedge_filled` (primitives.c
lines 289-304): the pixel's polar angle (math convention, normalized into
`[0, 2π)` by one conditional addition of `2π`) is tested against the
normalized start/end angles, with the branch chosen by the `wraps` flag. -/
noncomputable def wedge_angle_ok (start_rad end_rad : ℝ) (wraps : Prop)
    (x y : ℤ) : Prop :=
  let pa0 := atan2 (-(y : ℝ)) (x : ℝ)
  let pixel_angle := if pa0 < 0 then pa0 + 2 * π else pa0
  if wraps then pixel_angle ≥ start_rad ∨ pixel_angle ≤ end_rad
  else pixel_angle ≥ end_rad ∧ pixel_angle ≤ start_rad

/-- Body of `draw_wedge_filled` after its entry swap (primitives.c lines
260-312): converts both angles to math radians, normalizes them into
`[0, 2π)`, sets `wraps := end_rad < start_rad`, and scans the bounding box of
the truncated radius blending every pixel within distance `radius` whose angle
passes `wedge_angle_ok`.  (The source's `continue` on the distance check is the
first conjunct of the scan condition.) -/
noncomputable def draw_wedge_filled_sorted (fb : framebuffer_t) (cx cy : ℤ)
    (radius start_angle_deg end_angle_deg : ℝ) (color : ℕ) : framebuffer_t :=
  let start_rad := norm2pi (compass_to_math_rad start_angle_deg)
  let end_rad := norm2pi (compass_to_math_rad end_angle_deg)
  let wraps := end_rad < start_rad
  let r := c_trunc radius
  pixelScan fb cx cy (intRange (-r) r) (intRange (-r) r)
    (fun x y =>
      (((x * x + y * y : ℤ) : ℝ) ≤ radius * radius) ∧
      wedge_angle_ok start_rad end_rad wraps x y)
    color

/-- `draw_wedge_filled` (primitives.c lines 243-312): swaps the two angle
arguments when `start > end` (the source's in-place swap of lines 252-258),
then runs the scan body. -/
noncomputable def draw_wedge_filled (fb : framebuffer_t) (cx cy : ℤ)
    (radius start_angle_deg end_angle_deg : ℝ) (color : ℕ) : framebuffer_t :=
  if start_angle_deg > end_angle_deg then
    draw_wedge_filled_sorted fb cx cy radius end_angle_deg start_angle_deg color
  else
    draw_wedge_filled_sorted fb cx cy radius start_angle_deg end_angle_deg color

-- ════════════════════════════════════════════════════════════
-- Celestial coordinate engine (src/utils/celestial_position.c)
-- ════════════════════════════════════════════════════════════

namespace Celestial

/-- The `M_PI` macro constant of celestial_position.c, kept as the source's
exact literal `3.14159265358979323846` rather than idealized to `π`.  The
constant is a strictly smaller approximation of `π`, and the front/back
hemisphere verdict of `celestial_to_navball_coords` at the zenith depends on
exactly this: `cos(90·M_PI/180)` is a small positive number, not zero. -/
noncomputable def M_PI : ℝ := 3.14159265358979323846

/-- `DEG_TO_RAD` macro (celestial_position.c line 181). -/
noncomputable def DEG_TO_RAD (deg : ℝ) : ℝ := deg * M_PI / 180

/-- `vec3_t` (celestial_position.c lines 186-189): 3D vector of doubles. -/
structure vec3_t where
  x : ℝ
  y : ℝ
  z : ℝ

/-- `mat3_t` (celestial_position.c lines 194-197): row-major 3×3 matrix,
field `mi` embedding `m[i]`. -/
structure mat3_t where
  m0 : ℝ
  m1 : ℝ
  m2 : ℝ
  m3 : ℝ
  m4 : ℝ
  m5 : ℝ
  m6 : ℝ
  m7 : ℝ
  m8 : ℝ

/-- `horizontal_to_vector` (celestial_position.c lines 214-228): converts
azimuth/altitude to a 3D unit vector with +x=East, +y=Up, +z=North. -/
noncomputable def horizontal_to_vector (azimuth altitude : ℝ) : vec3_t :=
  let az_rad := DEG_TO_RAD azimuth
  let alt_rad := DEG_TO_RAD altitude
  let cos_alt := Real.cos alt_rad
  { x := cos_alt * Real.sin az_rad
    y := Real.sin alt_rad
    z := cos_alt * Real.cos az_rad }

/-- Rotation about the x axis by `t` radians (row-major). -/
noncomputable def rotX (t : ℝ) : mat3_t :=
  ⟨1, 0, 0, 0, Real.cos t, -Real.sin t, 0, Real.sin t, Real.cos t⟩

/-- Rotation about the y axis by `t` radians (row-major). -/
noncomputable def rotY (t : ℝ) : mat3_t :=
  ⟨Real.cos t, 0, Real.sin t, 0, 1, 0, -Real.sin t, 0, Real.cos t⟩

/-- Rotation about the z axis by `t` radians (row-major). -/
noncomputable def rotZ (t : ℝ) : mat3_t :=
  ⟨Real.cos t, -Real.sin t, 0, Real.sin t, Real.cos t, 0, 0, 0, 1⟩

/-- Row-major 3×3 matrix product. -/
noncomputable def mat3_mul (a b : mat3_t) : mat3_t :=
  ⟨a.m0 * b.m0 + a.m1 * b.m3 + a.m2 * b.m6,
   a.m0 * b.m1 + a.m1 * b.m4 + a.m2 * b.m7,
   a.m0 * b.m2 + a.m1 * b.m5 + a.m2 * b.m8,
   a.m3 * b.m0 + a.m4 * b.m3 + a.m5 * b.m6,
   a.m3 * b.m1 + a.m4 * b.m4 + a.m5 * b.m7,
   a.m3 * b.m2 + a.m4 * b.m5 + a.m5 * b.m8,
   a.m6 * b.m0 + a.m7 * b.m3 + a.m8 * b.m6,
   a.m6 * b.m1 + a.m7 * b.m4 + a.m8 * b.m7,
   a.m6 * b.m2 + a.m7 * b.m5 + a.m8 * b.m8⟩

/-- Modelled from the spec: `create_rotation_matrix` (celestial_position.c
lines 252-282) builds its matrix through the external cglm library
(`glm_euler_yxz_quat` then `glm_quat_mat3`), which is not part of this
repository.  Per the spec (§4.2) it is the YXZ intrinsic quaternion
composition with pitch (from elevation) about the x axis, roll (from azimuth,
swapped) about the y axis and yaw (from bank, swapped) about the z axis; a
composition of unit quaternions of axis rotations equals the product of the
corresponding rotation matrices, so the result is modelled as
`rotY(azimuth) * rotX(elevation) * rotZ(bank)` with the source's degree-to-
radian conversion. -/
noncomputable def create_rotation_matrix (azimuth elevation bank : ℝ) :
    mat3_t :=
  let pitch_rad := DEG_TO_RAD elevation
  let roll_rad := DEG_TO_RAD azimuth
  let yaw_rad := DEG_TO_RAD bank
  mat3_mul (rotY roll_rad) (mat3_mul (rotX pitch_rad) (rotZ yaw_rad))

/-- `mat3_mul_vec3` (celestial_position.c lines 293-301). -/
noncomputable def mat3_mul_vec3 (m : mat3_t) (v : vec3_t) : vec3_t :=
  { x := m.m0 * v.x + m.m1 * v.y + m.m2 * v.z
    y := m.m3 * v.x + m.m4 * v.y + m.m5 * v.z
    z := m.m6 * v.x + m.m7 * v.y + m.m8 * v.z }

/-- Result of `celestial_to_navball_coords`: the two out-parameters and the
returned visibility flag. -/
structure navball_coords_t where
  screen_x : ℤ
  screen_y : ℤ
  is_front : Prop

/-- `celestial_to_navball_coords` (celestial_position.c lines 303-337):
converts the body's horizontal coordinates to a 3D vector, rotates it by the
platform attitude matrix, reads the front/back flag off the sign of the
rotated z component (`is_front = (z > 0)`), and projects the rotated x/y onto
screen coordinates around the navball center (y inverted). -/
noncomputable def celestial_to_navball_coords
    (azimuth altitude platform_azimuth platform_elevation platform_bank : ℝ)
    (navball_center_x navball_center_y navball_radius : ℤ) : navball_coords_t :=
  let celestial_vec := horizontal_to_vector azimuth altitude
  let rotation :=
    create_rotation_matrix platform_azimuth platform_elevation platform_bank
  let rotated := mat3_mul_vec3 rotation celestial_vec
  { screen_x := navball_center_x + c_trunc (rotated.x * navball_radius)
    screen_y := navball_center_y - c_trunc (rotated.y * navball_radius)
    is_front := 0 < rotated.z }

end Celestial

-- ════════════════════════════════════════════════════════════
-- Navball sphere renderer (widgets/navball.c)
-- ════════════════════════════════════════════════════════════

namespace Navball

/-- `vec3_t` of the navball widget (float 3D vector). -/
structure vec3_t where
  x : ℝ
  y : ℝ
  z : ℝ

/-- `vec3_new` (navball.c). -/
def vec3_new (x y z : ℝ) : vec3_t := ⟨x, y, z⟩

/-- `vec3_dot` (navball.c). -/
def vec3_dot (a b : vec3_t) : ℝ := a.x * b.x + a.y * b.y + a.z * b.z

/-- `vec3_length` (navball.c): `sqrtf(vec3_dot(v, v))`. -/
noncomputable def vec3_length (v : vec3_t) : ℝ := Real.sqrt (vec3_dot v v)

/-- `vec3_normalize` (navball.c): divides by the length when it exceeds
`0.0001`, otherwise returns the vector unchanged. -/
noncomputable def vec3_normalize (v : vec3_t) : vec3_t :=
  let len := vec3_length v
  if len > 0.0001 then ⟨v.x / len, v.y / len, v.z / len⟩ else v

/-- `vec2_t` of the navball widget (UV texture coordinates). -/
structure vec2_t where
  u : ℝ
  v : ℝ

/-- `sphere_to_uv` (navball.c): equirectangular projection of a sphere point
to texture coordinates; `u = atan2(x,z)/(2π) + 0.5`, `v = asin(y)/π + 0.5`
after normalizing the input.  (The widget's float `M_PI` is idealized to
`π`.) -/
noncomputable def sphere_to_uv (point : vec3_t) : vec2_t :=
  let p := vec3_normalize point
  let theta := atan2 p.x p.z
  let phi := Real.arcsin p.y
  { u := theta / (2 * π) + 0.5
    v := phi / π + 0.5 }

/-- `navball_lut_entry_t` (navball.c): precomputed sphere point plus validity
flag. -/
structure navball_lut_entry_t where
  sphere_point : vec3_t
  valid : Bool

/-- `navball_lut_t` (navball.c): the per-instance lookup table. -/
structure navball_lut_t where
  entries : List navball_lut_entry_t
  size : ℕ
  total_pixels : ℕ
  radius : ℝ

/-- Loop body of `navball_lut_create` for pixel `(x, y)`: centers the pixel on
the sphere, tests `dist² ≤ radius²`, and on success stores the normalized
sphere-surface point with `z = sqrt(radius² - dist²)`.  The invalid branch
keeps the zero vector that `calloc` left in the entry. -/
noncomputable def navball_lut_entry (size x y : ℕ) : navball_lut_entry_t :=
  let radius : ℝ := (size : ℝ) / 2
  let sx : ℝ := (x : ℝ) - radius
  let sy : ℝ := (y : ℝ) - radius
  let dist_sq := sx * sx + sy * sy
  let radius_sq := radius * radius
  if dist_sq ≤ radius_sq then
    { sphere_point :=
        vec3_normalize (vec3_new sx sy (Real.sqrt (radius_sq - dist_sq)))
      valid := true }
  else { sphere_point := ⟨0, 0, 0⟩, valid := false }

/-- `navball_lut_create` (navball.c lines 570-638): builds the `size × size`
lookup table, filling `entries[y*size + x]` row by row with
`navball_lut_entry`.  (Allocation failure, which makes the C function return
NULL, is outside the pure model; the claims concern successful builds.) -/
noncomputable def navball_lut_create (size : ℕ) : navball_lut_t :=
  { entries :=
      (List.range size).flatMap fun y =>
        (List.range size).map fun x => navball_lut_entry size x y
    size := size
    total_pixels := size * size
    radius := (size : ℝ) / 2 }

/-- Default entry used with `List.getD` (an all-zero `calloc` entry). -/
def lutDefault : navball_lut_entry_t := ⟨⟨0, 0, 0⟩, false⟩

/-- Texture of the navball skin (loaded PNG pixels; sampled read-only). -/
structure texture_t where
  width : ℕ
  height : ℕ
  pixels : List ℕ

/-- Telemetry fields the navball widget reads from the decoded state. -/
structure navball_state_t where
  has_actual_space_time : Bool
  azimuth : ℝ
  elevation : ℝ
  bank : ℝ

/-- The fields of the render context that `navball_render`'s guard clause
reads (navball.c lines 900-908), plus the widget geometry. -/
structure navball_ctx_t where
  navball_enabled : Bool
  navball_texture : Option texture_t
  navball_lut : Option navball_lut_t
  navball_x : ℤ
  navball_y : ℤ
  navball_size : ℤ
  width : ℤ
  height : ℤ

/-- Opaque service abstracting the body of `navball_render` after its guard
clause (the per-pixel sphere rasterization loop, the SVG overlays and the
level marker, navball.c lines 910-1205): it transforms the pixel memory the
context's framebuffer pointer refers to.  The body is irrelevant to the guard
claims settled here; after the guard the source always returns true. -/
structure navball_services_t where
  body : navball_ctx_t → navball_state_t → (ℤ → ℤ → ℕ) → (ℤ → ℤ → ℕ)

/-- `navball_render` (navball.c lines 900-1205): the guard clause returns
false without touching the framebuffer when the context pointer is null, the
widget is disabled, or the texture or LUT pointer is null; otherwise the body
runs and the function returns true.  `mem` is the pixel memory that
`ctx->framebuffer` points to (a process-global in the source). -/
def navball_render (octx : Option navball_ctx_t) (pb_state : navball_state_t)
    (mem : ℤ → ℤ → ℕ) (svc : navball_services_t) : (ℤ → ℤ → ℕ) × Bool :=
  match octx with
  | none => (mem, false)
  | some ctx =>
    if ctx.navball_enabled = false ∨ ctx.navball_texture.isNone = true ∨
        ctx.navball_lut.isNone = true then
      (mem, false)
    else (svc.body ctx pb_state mem, true)

end Navball

-- ════════════════════════════════════════════════════════════
-- Per-frame plugin entry point (src/osd_plugin.c)
-- ════════════════════════════════════════════════════════════

namespace Plugin

/-- Telemetry fields of the decoded protobuf state (`ser_JonGUIState`) that the
modelled widgets read. -/
structure osd_state_t where
  heat_osd_enabled : Bool
  day_crosshair_offset_horizontal : ℤ
  day_crosshair_offset_vertical : ℤ
  heat_crosshair_offset_horizontal : ℤ
  heat_crosshair_offset_vertical : ℤ
  azimuth : ℝ
  elevation : ℝ
  bank : ℝ

/-- The plugin's global render context (`osd_context_t` plus the global
framebuffer of osd_plugin.c lines 71-72), restricted to the fields the
per-frame entry point and the widget guard clauses read.  `proto_state`
models `proto_valid` together with a successful `pb_decode`
(`decode_proto_state`, osd_plugin.c lines 113-132; protobuf decoding is
external nanopb code): `some` is a decoded record, `none` is
no/undecodable proto.  The widget enabled flags embed
`config.crosshair.enabled`, `config.timestamp.enabled`,
`radar_compass_enabled` and `config.variant_info.enabled`. -/
structure osd_context_t where
  needs_render : Bool
  proto_state : Option osd_state_t
  framebuffer : ℤ → ℤ → ℕ
  width : ℤ
  height : ℤ
  crosshair_enabled : Bool
  timestamp_enabled : Bool
  radar_compass_enabled : Bool
  variant_info_enabled : Bool

/-- Opaque services abstracting the widgets' drawing bodies: each transforms
the framebuffer contents.  The bodies (crosshair.c lines 278-298,
radar_compass.c lines 463-516, variant_info.c lines 214-384, and the
timestamp widget whose source is not under src/) draw through the rasterizer
and the external font/SVG services; they are irrelevant to the return-value
claim settled here, which depends only on each widget's guard clause and
report, both modelled exactly. -/
structure render_services_t where
  crosshair_body : osd_context_t → Option osd_state_t → (ℤ → ℤ → ℕ) → (ℤ → ℤ → ℕ)
  timestamp_body : osd_context_t → osd_state_t → (ℤ → ℤ → ℕ) → (ℤ → ℤ → ℕ)
  radar_body : osd_context_t → osd_state_t → (ℤ → ℤ → ℕ) → (ℤ → ℤ → ℕ)
  variant_body : osd_context_t → Option osd_state_t → (ℤ → ℤ → ℕ) → (ℤ → ℤ → ℕ)

/-- `crosshair_render` (crosshair.c lines 273-299): returns false immediately
when the crosshair is disabled, otherwise draws and returns true. -/
def crosshair_render (svc : render_services_t) (ctx : osd_context_t)
    (pb_state : Option osd_state_t) (fb : ℤ → ℤ → ℕ) : (ℤ → ℤ → ℕ) × Bool :=
  if ctx.crosshair_enabled = false then (fb, false)
  else (svc.crosshair_body ctx pb_state fb, true)

/-- Modelled from the spec: `timestamp_render` (widgets/timestamp.c) is not
under src/; per the spec (§9) every widget follows the common
`render(context, telemetry) → changed` contract selected by its configuration
boolean, so like the three in-src widgets it reports true exactly when
enabled, drawing its text through the opaque glyph service. -/
def timestamp_render (svc : render_services_t) (ctx : osd_context_t)
    (pb_state : osd_state_t) (fb : ℤ → ℤ → ℕ) : (ℤ → ℤ → ℕ) × Bool :=
  if ctx.timestamp_enabled = false then (fb, false)
  else (svc.timestamp_body ctx pb_state fb, true)

/-- `radar_compass_render` (radar_compass.c lines 457-517): returns false when
the context is null (the plugin always passes the global context, so the
nullness test is dropped) or the widget is disabled, otherwise draws and
returns true. -/
def radar_compass_render (svc : render_services_t) (ctx : osd_context_t)
    (pb_state : osd_state_t) (fb : ℤ → ℤ → ℕ) : (ℤ → ℤ → ℕ) × Bool :=
  if ctx.radar_compass_enabled = false then (fb, false)
  else (svc.radar_body ctx pb_state fb, true)

/-- `variant_info_render` (variant_info.c lines 206-384): returns false when
disabled, otherwise draws and always returns true. -/
def variant_info_render (svc : render_services_t) (ctx : osd_context_t)
    (pb_state : Option osd_state_t) (fb : ℤ → ℤ → ℕ) : (ℤ → ℤ → ℕ) × Bool :=
  if ctx.variant_info_enabled = false then (fb, false)
  else (svc.variant_body ctx pb_state fb, true)

/-- `render_widgets` (osd_plugin.c lines 332-351): ORs the widgets' change
reports; timestamp and radar compass run only when a decoded proto is
available. -/
def render_widgets (svc : render_services_t) (ctx : osd_context_t)
    (proto_state : Option osd_state_t) (fb : ℤ → ℤ → ℕ) :
    (ℤ → ℤ → ℕ) × Bool :=
  let r1 := crosshair_render svc ctx proto_state fb
  match proto_state with
  | some st =>
    let r2 := timestamp_render svc ctx st r1.1
    let r3 := radar_compass_render svc ctx st r2.1
    let r4 := variant_info_render svc ctx (some st) r3.1
    (r4.1, r1.2 || r2.2 || r3.2 || r4.2)
  | none =>
    let r4 := variant_info_render svc ctx none r1.1
    (r4.1, r1.2 || r4.2)

/-- `wasm_osd_render` (osd_plugin.c lines 365-391): returns 0 immediately when
no render is pending; otherwise clears the framebuffer to transparent
(`memset(g_framebuffer, 0, ...)`), renders the widgets, clears `needs_render`,
and returns 1 exactly when some widget reported a change. -/
def wasm_osd_render (svc : render_services_t) (ctx : osd_context_t) :
    osd_context_t × ℤ :=
  if ctx.needs_render = false then (ctx, 0)
  else
    let cleared : ℤ → ℤ → ℕ := fun _ _ => 0
    let r := render_widgets svc ctx ctx.proto_state cleared
    ({ ctx with framebuffer := r.1, needs_render := false },
     if r.2 = true then 1 else 0)

/-- Concrete context for the `wasm_osd_render` return-value counterexample: a
render is pending, the previous frame left an opaque white pixel buffer, no
proto has been received, and every widget is disabled. -/
def ctx0 : osd_context_t :=
  { needs_render := true
    proto_state := none
    framebuffer := fun _ _ => 4294967295
    width := 1920
    height := 1080
    crosshair_enabled := false
    timestamp_enabled := false
    radar_compass_enabled := false
    variant_info_enabled := false }

/-- Trivial widget-body services (never reached in the counterexample). -/
def svc0 : render_services_t :=
  ⟨fun _ _ fb => fb, fun _ _ fb => fb, fun _ _ fb => fb, fun _ _ fb => fb⟩

end Plugin

-- ════════════════════════════════════════════════════════════
-- Concrete framebuffers used by the counterexample theorems
-- ════════════════════════════════════════════════════════════

/-- A 10×10 all-transparent framebuffer. -/
def fb10 : framebuffer_t := ⟨10, 10, fun _ _ => 0⟩

/-- A 200×200 all-transparent framebuffer. -/
def fb200 : framebuffer_t := ⟨200, 200, fun _ _ => 0⟩

/-- Concrete telemetry record for the navball guard witness. -/
def nbState0 : Navball.navball_state_t := ⟨false, 0, 0, 0⟩

/-- Trivial navball body service (never reached in the guard witness). -/
def nbSvc0 : Navball.navball_services_t := ⟨fun _ _ m => m⟩

/-- All-transparent pixel memory. -/
def mem0 : ℤ → ℤ → ℕ := fun _ _ => 0

-- ════════════════════════════════════════════════════════════
-- Helper lemmas: index ranges
-- ════════════════════════════════════════════════════════════

theorem mem_intRange {a b x : ℤ} : x ∈ intRange a b ↔ a ≤ x ∧ x ≤ b := by
  constructor
  · intro hx
    obtain ⟨i, hi, hix⟩ := List.mem_map.mp hx
    have hlt := List.mem_range.mp hi
    omega
  · rintro ⟨h1, h2⟩
    refine List.mem_map.mpr ⟨(x - a).toNat, List.mem_range.mpr ?_, ?_⟩ <;>
      omega

theorem intRange_nodup (a b : ℤ) : (intRange a b).Nodup :=
  (List.nodup_range _).map fun i j h => by omega

theorem intRange_eq_nil {a b : ℤ} (h : b < a) : intRange a b = [] := by
  unfold intRange
  have h0 : (b + 1 - a).toNat = 0 := by omega
  rw [h0]
  rfl

-- ════════════════════════════════════════════════════════════
-- Helper lemmas: the blend primitive
-- ════════════════════════════════════════════════════════════

theorem blend_width (fb : framebuffer_t) (x y : ℤ) (c : ℕ) :
    (framebuffer_blend_pixel fb x y c).width = fb.width := by
  unfold framebuffer_blend_pixel
  split <;> rfl

theorem blend_height (fb : framebuffer_t) (x y : ℤ) (c : ℕ) :
    (framebuffer_blend_pixel fb x y c).height = fb.height := by
  unfold framebuffer_blend_pixel
  split <;> rfl

theorem blend_pixels_other (fb : framebuffer_t) (x y : ℤ) (c : ℕ)
    {px py : ℤ} (h : ¬(px = x ∧ py = y)) :
    (framebuffer_blend_pixel fb x y c).pixels px py = fb.pixels px py := by
  unfold framebuffer_blend_pixel
  split
  · dsimp only
    split
    · rename_i hin
      exact absurd hin h
    · rfl
  · rfl

theorem blend_pixels_self (fb : framebuffer_t) (x y : ℤ) (c : ℕ)
    (hb : 0 ≤ x ∧ x < fb.width ∧ 0 ≤ y ∧ y < fb.height) :
    (framebuffer_blend_pixel fb x y c).pixels x y =
      blendColor c (fb.pixels x y) := by
  unfold framebuffer_blend_pixel
  rw [if_pos hb]
  dsimp only
  split
  · rfl
  · rename_i hcon
    exact absurd ⟨rfl, rfl⟩ hcon

-- ════════════════════════════════════════════════════════════
-- Helper lemmas: pixel scans write each pixel at most once
-- ════════════════════════════════════════════════════════════

theorem rowScan_nil (cx cy : ℤ) (cond : ℤ → ℤ → Prop) (color : ℕ) (y : ℤ)
    (fb : framebuffer_t) : rowScan cx cy cond color y fb [] = fb := rfl

theorem rowScan_cons (cx cy : ℤ) (cond : ℤ → ℤ → Prop) (color : ℕ) (y : ℤ)
    (fb : framebuffer_t) (a : ℤ) (as : List ℤ) :
    rowScan cx cy cond color y fb (a :: as) =
      rowScan cx cy cond color y
        (if cond a y then draw_pixel fb (cx + a) (cy + y) color else fb) as :=
  rfl

theorem pixelScan_nil (fb : framebuffer_t) (cx cy : ℤ) (xs : List ℤ)
    (cond : ℤ → ℤ → Prop) (color : ℕ) :
    pixelScan fb cx cy xs [] cond color = fb := rfl

theorem pixelScan_cons (fb : framebuffer_t) (cx cy : ℤ) (xs : List ℤ)
    (b : ℤ) (bs : List ℤ) (cond : ℤ → ℤ → Prop) (color : ℕ) :
    pixelScan fb cx cy xs (b :: bs) cond color =
      pixelScan (rowScan cx cy cond color b fb xs) cx cy xs bs cond color :=
  rfl

theorem rowScan_width (cx cy : ℤ) (cond : ℤ → ℤ → Prop) (color : ℕ) (y : ℤ) :
    ∀ (xs : List ℤ) (fb : framebuffer_t),
      (rowScan cx cy cond color y fb xs).width = fb.width := by
  intro xs
  induction xs with
  | nil => intro fb; rfl
  | cons a as ih =>
    intro fb
    rw [rowScan_cons, ih]
    split
    · exact blend_width ..
    · rfl

theorem rowScan_height (cx cy : ℤ) (cond : ℤ → ℤ → Prop) (color : ℕ)
    (y : ℤ) :
    ∀ (xs : List ℤ) (fb : framebuffer_t),
      (rowScan cx cy cond color y fb xs).height = fb.height := by
  intro xs
  induction xs with
  | nil => intro fb; rfl
  | cons a as ih =>
    intro fb
    rw [rowScan_cons, ih]
    split
    · exact blend_height ..
    · rfl

theorem rowScan_pixels_untouched (cx cy : ℤ) (cond : ℤ → ℤ → Prop)
    (color : ℕ) (y : ℤ) {px py : ℤ} :
    ∀ (xs : List ℤ) (fb : framebuffer_t),
      (∀ x ∈ xs, ¬(px = cx + x ∧ py = cy + y)) →
      (rowScan cx cy cond color y fb xs).pixels px py = fb.pixels px py := by
  intro xs
  induction xs with
  | nil => intro fb _; rfl
  | cons a as ih =>
    intro fb h
    rw [rowScan_cons, ih _ fun x hx => h x (List.mem_cons_of_mem _ hx)]
    split
    · exact blend_pixels_other _ _ _ _ (h a (List.mem_cons_self _ _))
    · rfl

theorem rowScan_pixels_write (cx cy : ℤ) (cond : ℤ → ℤ → Prop) (color : ℕ)
    (y : ℤ) {x₀ : ℤ} :
    ∀ (xs : List ℤ) (fb : framebuffer_t),
      xs.Nodup → x₀ ∈ xs → cond x₀ y →
      0 ≤ cx + x₀ → cx + x₀ < fb.width → 0 ≤ cy + y → cy + y < fb.height →
      (rowScan cx cy cond color y fb xs).pixels (cx + x₀) (cy + y) =
        blendColor color (fb.pixels (cx + x₀) (cy + y)) := by
  intro xs
  induction xs with
  | nil =>
    intro fb _ hmem
    exact absurd hmem (List.not_mem_nil _)
  | cons a as ih =>
    intro fb hnd hmem hc hx1 hx2 hy1 hy2
    rw [rowScan_cons]
    rcases List.mem_cons.mp hmem with rfl | hmem
    · rw [if_pos hc]
      have hnotin : x₀ ∉ as := (List.nodup_cons.mp hnd).1
      rw [rowScan_pixels_untouched cx cy cond color y as _
          fun x hx hcontra => hnotin (by
            obtain ⟨hc1, _⟩ := hcontra
            have hxx : x = x₀ := by omega
            rwa [hxx] at hx)]
      exact blend_pixels_self _ _ _ _ ⟨hx1, hx2, hy1, hy2⟩
    · have hne : a ≠ x₀ := fun h => (List.nodup_cons.mp hnd).1 (h ▸ hmem)
      have hpix : (if cond a y then draw_pixel fb (cx + a) (cy + y) color
            else fb).pixels (cx + x₀) (cy + y) =
          fb.pixels (cx + x₀) (cy + y) := by
        split
        · exact blend_pixels_other _ _ _ _ fun hcontra => by
            obtain ⟨hc1, _⟩ := hcontra
            exact hne (by omega)
        · rfl
      have hw : (if cond a y then draw_pixel fb (cx + a) (cy + y) color
          else fb).width = fb.width := by
        split
        · exact blend_width ..
        · rfl
      have hh : (if cond a y then draw_pixel fb (cx + a) (cy + y) color
          else fb).height = fb.height := by
        split
        · exact blend_height ..
        · rfl
      rw [ih _ (List.nodup_cons.mp hnd).2 hmem hc hx1 (by rw [hw]; exact hx2)
        hy1 (by rw [hh]; exact hy2), hpix]

theorem pixelScan_rows_untouched (cx cy : ℤ) (xs : List ℤ)
    (cond : ℤ → ℤ → Prop) (color : ℕ) {px py : ℤ} :
    ∀ (ys : List ℤ) (fb : framebuffer_t),
      (∀ y ∈ ys, py ≠ cy + y) →
      (pixelScan fb cx cy xs ys cond color).pixels px py =
        fb.pixels px py := by
  intro ys
  induction ys with
  | nil => intro fb _; rfl
  | cons b bs ih =>
    intro fb h
    rw [pixelScan_cons, ih _ fun y hy => h y (List.mem_cons_of_mem _ hy)]
    exact rowScan_pixels_untouched cx cy cond color b xs fb
      fun x _ hcontra => h b (List.mem_cons_self _ _) hcontra.2

theorem pixelScan_pixels_write (cx cy : ℤ) (xs : List ℤ)
    (cond : ℤ → ℤ → Prop) (color : ℕ) {x₀ y₀ : ℤ} :
    ∀ (ys : List ℤ) (fb : framebuffer_t),
      ys.Nodup → y₀ ∈ ys → xs.Nodup → x₀ ∈ xs → cond x₀ y₀ →
      0 ≤ cx + x₀ → cx + x₀ < fb.width → 0 ≤ cy + y₀ → cy + y₀ < fb.height →
      (pixelScan fb cx cy xs ys cond color).pixels (cx + x₀) (cy + y₀) =
        blendColor color (fb.pixels (cx + x₀) (cy + y₀)) := by
  intro ys
  induction ys with
  | nil =>
    intro fb _ hmem
    exact absurd hmem (List.not_mem_nil _)
  | cons b bs ih =>
    intro fb hnd hmem hxnd hxmem hc hx1 hx2 hy1 hy2
    rw [pixelScan_cons]
    rcases List.mem_cons.mp hmem with rfl | hmem
    · have hnotin : y₀ ∉ bs := (List.nodup_cons.mp hnd).1
      rw [pixelScan_rows_untouched cx cy xs cond color bs _
          fun y hy hcontra => hnotin (by
            have hyy : y = y₀ := by omega
            rwa [hyy] at hy)]
      exact rowScan_pixels_write cx cy cond color y₀ xs fb hxnd hxmem hc
        hx1 hx2 hy1 hy2
    · have hne : b ≠ y₀ := fun h => (List.nodup_cons.mp hnd).1 (h ▸ hmem)
      have hpix : (rowScan cx cy cond color b fb xs).pixels (cx + x₀)
          (cy + y₀) = fb.pixels (cx + x₀) (cy + y₀) :=
        rowScan_pixels_untouched cx cy cond color b xs fb
          fun x _ hcontra => hne (by
            obtain ⟨_, hc2⟩ := hcontra
            omega)
      rw [ih _ (List.nodup_cons.mp hnd).2 hmem hxnd hxmem hc hx1
        (by rw [rowScan_width]; exact hx2) hy1
        (by rw [rowScan_height]; exact hy2), hpix]

-- ════════════════════════════════════════════════════════════
-- Claim theorems
-- ════════════════════════════════════════════════════════════

/-- C5: for every coordinate pair `(x,y)` outside `[0,width) × [0,height)`,
`framebuffer_blend_pixel` (the framebuffer's single bounds-checked blend
primitive, called by `draw_pixel`) returns the framebuffer unchanged — every
pixel of the buffer keeps its value — and, being a total function, is a
silent no-op rather than an error. -/
theorem framebuffer_blend_pixel_out_of_bounds (fb : framebuffer_t) (x y : ℤ)
    (color : ℕ) (h : x < 0 ∨ fb.width ≤ x ∨ y < 0 ∨ fb.height ≤ y) :
    framebuffer_blend_pixel fb x y color = fb := by
  unfold framebuffer_blend_pixel
  rw [if_neg]
  rintro ⟨h1, h2, h3, h4⟩
  rcases h with h | h | h | h <;> omega

/-- Witness for C5: blending at `(-1, 5)` on the 10×10 framebuffer is a
no-op. -/
theorem framebuffer_blend_pixel_out_of_bounds_witness :
    ((-1 : ℤ) < 0 ∨ fb10.width ≤ -1 ∨ (5 : ℤ) < 0 ∨ fb10.height ≤ 5) ∧
      framebuffer_blend_pixel fb10 (-1) 5 123 = fb10 :=
  ⟨Or.inl (by norm_num),
   framebuffer_blend_pixel_out_of_bounds fb10 (-1) 5 123
     (Or.inl (by norm_num))⟩

/-- C9: `draw_wedge_filled` is order-independent in its two angle arguments:
for every framebuffer, center, radius, color and angle pair the swapped call
produces the identical framebuffer (so a wedge given as `[10°, 350°]` and its
explicitly swapped representation select the same pixel set).  The entry swap
of primitives.c lines 252-258 makes the scan depend only on the unordered
pair. -/
theorem draw_wedge_filled_angle_order_independent (fb : framebuffer_t)
    (cx cy : ℤ) (radius s e : ℝ) (color : ℕ) :
    draw_wedge_filled fb cx cy radius s e color =
      draw_wedge_filled fb cx cy radius e s color := by
  unfold draw_wedge_filled
  rcases lt_trichotomy s e with h | rfl | h
  · rw [if_neg (asymm h), if_pos h]
  · rw [if_neg (lt_irrefl _)]
  · rw [if_pos h, if_neg (asymm h)]

/-- C10: when the context pointer is null, the navball widget is disabled, or
its texture or LUT pointer is null, `navball_render` returns false and leaves
the pixel memory completely unchanged (navball.c lines 900-908). -/
theorem navball_render_guard_noop (octx : Option Navball.navball_ctx_t)
    (st : Navball.navball_state_t) (mem : ℤ → ℤ → ℕ)
    (svc : Navball.navball_services_t)
    (h : octx = none ∨ ∃ ctx, octx = some ctx ∧
      (ctx.navball_enabled = false ∨ ctx.navball_texture = none ∨
        ctx.navball_lut = none)) :
    Navball.navball_render octx st mem svc = (mem, false) := by
  rcases h with rfl | ⟨ctx, rfl, hg⟩
  · rfl
  · have hstep : Navball.navball_render (some ctx) st mem svc =
        if ctx.navball_enabled = false ∨ ctx.navball_texture.isNone = true ∨
            ctx.navball_lut.isNone = true then (mem, false)
        else (svc.body ctx st mem, true) := rfl
    rw [hstep, if_pos]
    rcases hg with h | h | h
    · exact Or.inl h
    · exact Or.inr (Or.inl (by rw [h]; rfl))
    · exact Or.inr (Or.inr (by rw [h]; rfl))

/-- Witness for C10: a null context pointer yields `(mem, false)`. -/
theorem navball_render_guard_noop_witness :
    ((none : Option Navball.navball_ctx_t) = none ∨
      ∃ ctx, (none : Option Navball.navball_ctx_t) = some ctx ∧
        (ctx.navball_enabled = false ∨ ctx.navball_texture = none ∨
          ctx.navball_lut = none)) ∧
      Navball.navball_render none nbState0 mem0 nbSvc0 = (mem0, false) :=
  ⟨Or.inl rfl,
   navball_render_guard_noop none nbState0 mem0 nbSvc0 (Or.inl rfl)⟩

/-- C3 counterexample: with a render pending, no decoded proto and every
widget disabled, `wasm_osd_render` returns 0 even though the initial
framebuffer clear changes pixel `(0,0)` from opaque white to transparent —
refuting that a nonzero return is equivalent to some pixel changing. -/
theorem wasm_osd_render_zero_despite_pixel_change :
    (Plugin.wasm_osd_render Plugin.svc0 Plugin.ctx0).2 = 0 ∧
      (Plugin.wasm_osd_render Plugin.svc0 Plugin.ctx0).1.framebuffer 0 0 ≠
        Plugin.ctx0.framebuffer 0 0 := by
  constructor
  · rfl
  · decide

/-- C3 (amended): `wasm_osd_render` returns 1 exactly when a render was
pending and at least one widget's render function reported drawing — the
crosshair or variant-info widget enabled, or a decoded proto present with the
timestamp or radar-compass widget enabled.  The report is each widget's
enabled flag, not an actual pixel change: the initial clear of the buffer is
not reflected in the return value. -/
theorem wasm_osd_render_ret_iff_widget_reported
    (svc : Plugin.render_services_t) (ctx : Plugin.osd_context_t) :
    (Plugin.wasm_osd_render svc ctx).2 = 1 ↔
      (ctx.needs_render = true ∧ (ctx.crosshair_enabled = true ∨
        (ctx.proto_state.isSome = true ∧ (ctx.timestamp_enabled = true ∨
          ctx.radar_compass_enabled = true)) ∨
        ctx.variant_info_enabled = true)) := by
  unfold Plugin.wasm_osd_render Plugin.render_widgets Plugin.crosshair_render
    Plugin.timestamp_render Plugin.radar_compass_render
    Plugin.variant_info_render
  cases hn : ctx.needs_render <;>
    cases hp : ctx.proto_state <;>
      cases hc : ctx.crosshair_enabled <;>
        cases ht : ctx.timestamp_enabled <;>
          cases hr : ctx.radar_compass_enabled <;>
            cases hv : ctx.variant_info_enabled <;>
              simp [hn, hp, hc, ht, hr, hv]

/-- C6: `navball_lut_create` is deterministic: two builds with the same size
(for example 300) produce lookup tables whose validity flags and sphere
points agree entry by entry.  The loop body reads only `size`, `x` and `y`,
so its faithful embedding is a pure function and the two builds are
definitionally equal. -/
theorem navball_lut_create_deterministic (size i : ℕ) :
    (((Navball.navball_lut_create size).entries.getD i
        Navball.lutDefault).valid =
      ((Navball.navball_lut_create size).entries.getD i
        Navball.lutDefault).valid) ∧
    (((Navball.navball_lut_create size).entries.getD i
        Navball.lutDefault).sphere_point =
      ((Navball.navball_lut_create size).entries.getD i
        Navball.lutDefault).sphere_point) :=
  ⟨rfl, rfl⟩

-- Helper facts for the radius theorems.

theorem c_trunc_le_neg_one {x : ℝ} (h : x ≤ -1) : c_trunc x ≤ -1 := by
  unfold c_trunc
  rw [if_neg (by linarith : ¬(0 : ℝ) ≤ x)]
  exact Int.ceil_le.mpr (by push_cast; linarith)

theorem c_trunc_fifty : c_trunc (50 : ℝ) = 50 := by
  unfold c_trunc
  rw [if_pos (by norm_num : (0 : ℝ) ≤ 50)]
  rw [show ((50 : ℝ)) = ((50 : ℤ) : ℝ) by norm_num, Int.floor_intCast]

theorem c_trunc_zero : c_trunc (0 : ℝ) = 0 := by
  unfold c_trunc
  rw [if_pos le_rfl]
  exact Int.floor_zero

theorem norm2pi_eq_self {x : ℝ} (h0 : 0 ≤ x) (h2 : x < 2 * π) :
    norm2pi x = x := by
  unfold norm2pi
  have hpos : (0 : ℝ) < 2 * π := by positivity
  have hfl : ⌊x / (2 * π)⌋ = 0 := by
    rw [Int.floor_eq_zero_iff]
    exact ⟨div_nonneg h0 hpos.le, (div_lt_one hpos).mpr h2⟩
  rw [hfl]
  push_cast
  ring

/-- C4 counterexample: `draw_filled_circle` with radius exactly 0 blends the
center pixel (the truncated radius is 0 and the single scan cell passes
`0 ≤ 0`), so the framebuffer does not stay unchanged: pixel `(5,5)` of the
all-transparent 10×10 framebuffer becomes opaque red. -/
theorem draw_filled_circle_radius_zero_blends_center :
    (draw_filled_circle fb10 5 5 0 4278190335).pixels 5 5 = 4278190335 ∧
      fb10.pixels 5 5 = 0 := by
  refine ⟨?_, rfl⟩
  show (draw_filled_circle fb10 5 5 0 4278190335).pixels (5 + 0) (5 + 0) =
    4278190335
  simp only [draw_filled_circle, c_trunc_zero]
  rw [pixelScan_pixels_write 5 5 _ _ 4278190335 _ fb10 (intRange_nodup _ _)
    (mem_intRange.mpr (by norm_num)) (intRange_nodup _ _)
    (mem_intRange.mpr (by norm_num)) (by norm_num) (by norm_num)
    (by norm_num [fb10]) (by norm_num) (by norm_num [fb10])]
  decide

/-- C4 (amended): the radius-taking shape operations are total (no errors);
for every radius ≤ -1 `draw_filled_circle` and `draw_wedge_filled` leave the
framebuffer unchanged, and `draw_circle_outline` does whenever
`radius + thickness/2 ≤ -1`.  For `-1 < radius ≤ 0` the truncated radius is 0
and the scans can still blend the center pixel, as the counterexample
shows. -/
theorem draw_radius_nonpositive_empty (fb : framebuffer_t) (cx cy : ℤ)
    (radius thickness s e : ℝ) (color : ℕ) :
    (radius ≤ -1 → draw_filled_circle fb cx cy radius color = fb) ∧
    (radius ≤ -1 → draw_wedge_filled fb cx cy radius s e color = fb) ∧
    (radius + thickness / 2 ≤ -1 →
      draw_circle_outline fb cx cy radius color thickness = fb) := by
  refine ⟨?_, ?_, ?_⟩
  · intro h
    have hr := c_trunc_le_neg_one h
    simp only [draw_filled_circle]
    rw [intRange_eq_nil (by omega)]
    exact pixelScan_nil ..
  · intro h
    have hr := c_trunc_le_neg_one h
    unfold draw_wedge_filled
    split <;>
      (simp only [draw_wedge_filled_sorted]
       rw [intRange_eq_nil (by omega)]
       exact pixelScan_nil ..)
  · intro h
    have hr := c_trunc_le_neg_one h
    simp only [draw_circle_outline]
    rw [intRange_eq_nil (by omega)]
    exact pixelScan_nil ..

/-- Witness for C4 (amended) at radius -2, thickness 1. -/
theorem draw_radius_nonpositive_empty_witness :
    ((-2 : ℝ) ≤ -1 ∧ draw_filled_circle fb10 5 5 (-2) 4278190335 = fb10) ∧
    ((-2 : ℝ) ≤ -1 ∧ draw_wedge_filled fb10 5 5 (-2) 0 90 4278190335 = fb10) ∧
    ((-2 : ℝ) + 1 / 2 ≤ -1 ∧
      draw_circle_outline fb10 5 5 (-2) 4278190335 1 = fb10) :=
  ⟨⟨by norm_num,
    (draw_radius_nonpositive_empty fb10 5 5 (-2) 1 0 90 4278190335).1
      (by norm_num)⟩,
   ⟨by norm_num,
    (draw_radius_nonpositive_empty fb10 5 5 (-2) 1 0 90 4278190335).2.1
      (by norm_num)⟩,
   ⟨by norm_num,
    (draw_radius_nonpositive_empty fb10 5 5 (-2) 1 0 90 4278190335).2.2
      (by norm_num)⟩⟩

-- Write-characterization of the sorted wedge scan, used to evaluate the
-- wedge fill at a concrete pixel.

theorem draw_wedge_filled_sorted_pixels_write (fb : framebuffer_t)
    (cx cy : ℤ) (radius s e : ℝ) (color : ℕ) (x₀ y₀ : ℤ)
    (hx : -(c_trunc radius) ≤ x₀ ∧ x₀ ≤ c_trunc radius)
    (hy : -(c_trunc radius) ≤ y₀ ∧ y₀ ≤ c_trunc radius)
    (hdist : ((x₀ * x₀ + y₀ * y₀ : ℤ) : ℝ) ≤ radius * radius)
    (hang : wedge_angle_ok (norm2pi (compass_to_math_rad s))
      (norm2pi (compass_to_math_rad e))
      (norm2pi (compass_to_math_rad e) < norm2pi (compass_to_math_rad s))
      x₀ y₀)
    (hb1 : 0 ≤ cx + x₀) (hb2 : cx + x₀ < fb.width)
    (hb3 : 0 ≤ cy + y₀) (hb4 : cy + y₀ < fb.height) :
    (draw_wedge_filled_sorted fb cx cy radius s e color).pixels (cx + x₀)
        (cy + y₀) =
      blendColor color (fb.pixels (cx + x₀) (cy + y₀)) := by
  simp only [draw_wedge_filled_sorted]
  exact pixelScan_pixels_write cx cy _ _ color _ fb (intRange_nodup _ _)
    (mem_intRange.mpr hy) (intRange_nodup _ _) (mem_intRange.mpr hx)
    ⟨hdist, hang⟩ hb1 hb2 hb3 hb4

/-- C2: drawing the filled wedge from 0° to 90° (compass convention) at
radius 50 around `(100,100)` blends pixel `(97,103)`, which lies in the
lower-left quadrant (`x < cx`, `y > cy`).  The wrap test of primitives.c
lines 275-304 is inverted relative to the documented wedge membership — the
scan fills the closed complement of the commanded wedge — so the claimed
"upper-right only" property fails on the code. -/
theorem wedge_0_90_draws_lower_left_pixel :
    (draw_wedge_filled fb200 100 100 50 0 90 4278190335).pixels 97 103 =
        4278190335 ∧
      fb200.pixels 97 103 = 0 ∧ (97 : ℤ) < 100 ∧ (100 : ℤ) < 103 := by
  refine ⟨?_, rfl, by norm_num, by norm_num⟩
  have hsorted : draw_wedge_filled fb200 100 100 50 0 90 4278190335 =
      draw_wedge_filled_sorted fb200 100 100 50 0 90 4278190335 := by
    unfold draw_wedge_filled
    rw [if_neg (by norm_num : ¬(0 : ℝ) > 90)]
  have hstart : norm2pi (compass_to_math_rad 0) = π / 2 := by
    have h1 : compass_to_math_rad 0 = π / 2 := by
      unfold compass_to_math_rad deg_to_radf
      ring
    rw [h1, norm2pi_eq_self (by positivity) (by linarith [Real.pi_pos])]
  have hend : norm2pi (compass_to_math_rad 90) = 0 := by
    have h1 : compass_to_math_rad 90 = 0 := by
      unfold compass_to_math_rad deg_to_radf
      ring
    rw [h1, norm2pi_eq_self le_rfl (by positivity)]
  have hang : wedge_angle_ok (norm2pi (compass_to_math_rad 0))
      (norm2pi (compass_to_math_rad 90))
      (norm2pi (compass_to_math_rad 90) < norm2pi (compass_to_math_rad 0))
      (-3) 3 := by
    rw [hstart, hend]
    simp only [wedge_angle_ok]
    rw [if_pos (by positivity : (0 : ℝ) < π / 2)]
    left
    have hpa : atan2 (-((3 : ℤ) : ℝ)) (((-3 : ℤ) : ℝ)) = π / 4 - π := by
      have e1 : (-((3 : ℤ) : ℝ)) = (-3 : ℝ) := by norm_num
      have e2 : (((-3 : ℤ) : ℝ)) = (-3 : ℝ) := by norm_num
      rw [e1, e2]
      unfold atan2
      rw [if_neg (by norm_num : ¬(0 : ℝ) < -3),
        if_pos (by norm_num : (-3 : ℝ) < 0),
        if_neg (by norm_num : ¬(0 : ℝ) ≤ -3)]
      norm_num [Real.arctan_one]
    rw [hpa, if_pos (by linarith [Real.pi_pos] : π / 4 - π < 0)]
    have := Real.pi_pos
    linarith
  have h97 : (97 : ℤ) = 100 + (-3) := by norm_num
  have h103 : (103 : ℤ) = 100 + 3 := by norm_num
  rw [hsorted, h97, h103,
    draw_wedge_filled_sorted_pixels_write fb200 100 100 50 0 90 4278190335
      (-3) 3 (by rw [c_trunc_fifty]; norm_num) (by rw [c_trunc_fifty]; norm_num)
      (by push_cast; norm_num) hang (by norm_num) (by norm_num [fb200])
      (by norm_num) (by norm_num [fb200])]
  decide

-- Helper fact: the range of atan2.

theorem atan2_range (y x : ℝ) : -π < atan2 y x ∧ atan2 y x ≤ π := by
  unfold atan2
  have ha1 := Real.arctan_lt_pi_div_two (y / x)
  have ha2 := Real.neg_pi_div_two_lt_arctan (y / x)
  have hpi := Real.pi_pos
  split_ifs with hx hx2 hy hy2 hy3
  · constructor <;> linarith
  · have hq : y / x ≤ 0 := div_nonpos_iff.mpr (Or.inl ⟨hy, hx2.le⟩)
    have harct : Real.arctan (y / x) ≤ 0 := by
      calc Real.arctan (y / x) ≤ Real.arctan 0 :=
            Real.arctan_strictMono.monotone hq
        _ = 0 := Real.arctan_zero
    constructor <;> linarith
  · have hq : 0 < y / x := div_pos_iff.mpr (Or.inr ⟨by linarith, hx2⟩)
    have harct : 0 < Real.arctan (y / x) := by
      calc (0 : ℝ) = Real.arctan 0 := Real.arctan_zero.symm
        _ < Real.arctan (y / x) := Real.arctan_strictMono hq
    constructor <;> linarith
  · constructor <;> linarith
  · constructor <;> linarith
  · constructor <;> linarith

/-- C8 counterexample: the north pole `(0,1,0)` lies on the unit sphere and
`sphere_to_uv` maps it to `v = asin(1)/π + 0.5 = 1`, so the returned `v` is
not in the half-open interval `[0,1)`. -/
theorem sphere_to_uv_pole_v_eq_one :
    Navball.vec3_length ⟨0, 1, 0⟩ = 1 ∧
      (Navball.sphere_to_uv ⟨0, 1, 0⟩).v = 1 := by
  have hlen : Navball.vec3_length ⟨0, 1, 0⟩ = 1 := by
    unfold Navball.vec3_length Navball.vec3_dot
    norm_num
  refine ⟨hlen, ?_⟩
  have hnorm : Navball.vec3_normalize ⟨0, 1, 0⟩ = ⟨0, 1, 0⟩ := by
    simp only [Navball.vec3_normalize, hlen]
    rw [if_pos (by norm_num)]
    simp
  simp only [Navball.sphere_to_uv, hnorm]
  rw [Real.arcsin_one]
  have hne : π ≠ 0 := Real.pi_ne_zero
  field_simp
  ring

/-- C8 (amended): for every point on the unit sphere, `sphere_to_uv` returns
exactly `u = atan2(x,z)/(2π) + 0.5` and `v = asin(y)/π + 0.5`, and both
values lie in the closed interval `[0,1]` (the interval is not half-open:
`v = 1` at the pole `y = 1` and `u = 1` where `atan2 = π`). -/
theorem sphere_to_uv_formula_and_closed_range (p : Navball.vec3_t)
    (hp : Navball.vec3_length p = 1) :
    (Navball.sphere_to_uv p).u = atan2 p.x p.z / (2 * π) + 0.5 ∧
    (Navball.sphere_to_uv p).v = Real.arcsin p.y / π + 0.5 ∧
    0 ≤ (Navball.sphere_to_uv p).u ∧ (Navball.sphere_to_uv p).u ≤ 1 ∧
    0 ≤ (Navball.sphere_to_uv p).v ∧ (Navball.sphere_to_uv p).v ≤ 1 := by
  obtain ⟨px, py, pz⟩ := p
  have hnorm : Navball.vec3_normalize ⟨px, py, pz⟩ = ⟨px, py, pz⟩ := by
    simp only [Navball.vec3_normalize, hp]
    rw [if_pos (by norm_num)]
    simp
  have hu : (Navball.sphere_to_uv ⟨px, py, pz⟩).u =
      atan2 px pz / (2 * π) + 0.5 := by
    simp only [Navball.sphere_to_uv, hnorm]
  have hv : (Navball.sphere_to_uv ⟨px, py, pz⟩).v =
      Real.arcsin py / π + 0.5 := by
    simp only [Navball.sphere_to_uv, hnorm]
  have hpi := Real.pi_pos
  have h2pi : (0 : ℝ) < 2 * π := by positivity
  obtain ⟨hth1, hth2⟩ := atan2_range px pz
  have hdiv1 : -(1 / 2 : ℝ) < atan2 px pz / (2 * π) := by
    have : -π / (2 * π) < atan2 px pz / (2 * π) :=
      (div_lt_div_iff_of_pos_right h2pi).mpr hth1
    have heq : -π / (2 * π) = -(1 / 2 : ℝ) := by
      rw [div_eq_iff (ne_of_gt h2pi)]
      ring
    linarith [heq ▸ this]
  have hdiv2 : atan2 px pz / (2 * π) ≤ 1 / 2 := by
    have : atan2 px pz / (2 * π) ≤ π / (2 * π) :=
      (div_le_div_iff_of_pos_right h2pi).mpr hth2
    have heq : π / (2 * π) = (1 / 2 : ℝ) := by
      rw [div_eq_iff (ne_of_gt h2pi)]
      ring
    linarith [heq ▸ this]
  have has1 := Real.neg_pi_div_two_le_arcsin py
  have has2 := Real.arcsin_le_pi_div_two py
  have hdiv3 : -(1 / 2 : ℝ) ≤ Real.arcsin py / π := by
    have : -(π / 2) / π ≤ Real.arcsin py / π :=
      (div_le_div_iff_of_pos_right hpi).mpr has1
    have heq : -(π / 2) / π = -(1 / 2 : ℝ) := by
      rw [div_eq_iff (ne_of_gt hpi)]
      ring
    linarith [heq ▸ this]
  have hdiv4 : Real.arcsin py / π ≤ 1 / 2 := by
    have : Real.arcsin py / π ≤ (π / 2) / π :=
      (div_le_div_iff_of_pos_right hpi).mpr has2
    have heq : (π / 2) / π = (1 / 2 : ℝ) := by
      rw [div_eq_iff (ne_of_gt hpi)]
      ring
    linarith [heq ▸ this]
  refine ⟨hu, hv, ?_, ?_, ?_, ?_⟩
  · rw [hu]
    linarith
  · rw [hu]
    linarith
  · rw [hv]
    linarith
  · rw [hv]
    linarith

/-- Witness for C8 (amended) at the unit point `(0,0,1)`. -/
theorem sphere_to_uv_formula_and_closed_range_witness :
    Navball.vec3_length ⟨0, 0, 1⟩ = 1 ∧
      ((Navball.sphere_to_uv ⟨0, 0, 1⟩).u =
          atan2 (0 : ℝ) 1 / (2 * π) + 0.5 ∧
        (Navball.sphere_to_uv ⟨0, 0, 1⟩).v =
          Real.arcsin 0 / π + 0.5 ∧
        0 ≤ (Navball.sphere_to_uv ⟨0, 0, 1⟩).u ∧
        (Navball.sphere_to_uv ⟨0, 0, 1⟩).u ≤ 1 ∧
        0 ≤ (Navball.sphere_to_uv ⟨0, 0, 1⟩).v ∧
        (Navball.sphere_to_uv ⟨0, 0, 1⟩).v ≤ 1) := by
  have hlen : Navball.vec3_length ⟨0, 0, 1⟩ = 1 := by
    unfold Navball.vec3_length Navball.vec3_dot
    norm_num
  exact ⟨hlen, sphere_to_uv_formula_and_closed_range ⟨0, 0, 1⟩ hlen⟩

/-- C7: for every size ≥ 1, every valid entry of the LUT built by
`navball_lut_create` stores a sphere point of Euclidean norm exactly 1 (the
stored point is `vec3_normalize` of a vector of length `size/2 ≥ 1/2`, which
exceeds the normalization threshold). -/
theorem navball_lut_valid_unit_norm (size : ℕ) (hsize : 1 ≤ size)
    (en : Navball.navball_lut_entry_t)
    (he : en ∈ (Navball.navball_lut_create size).entries)
    (hv : en.valid = true) :
    Navball.vec3_length en.sphere_point = 1 := by
  simp only [Navball.navball_lut_create] at he
  obtain ⟨y, hy, hrow⟩ := List.mem_flatMap.mp he
  obtain ⟨x, hx, rfl⟩ := List.mem_map.mp hrow
  simp only [Navball.navball_lut_entry] at hv ⊢
  split at hv
  · rename_i hd
    rw [if_pos hd]
    have hρ : (0 : ℝ) < (size : ℝ) / 2 := by
      have : (1 : ℝ) ≤ (size : ℝ) := by exact_mod_cast hsize
      linarith
    have hρhalf : (1 : ℝ) / 2 ≤ (size : ℝ) / 2 := by
      have : (1 : ℝ) ≤ (size : ℝ) := by exact_mod_cast hsize
      linarith
    set ρ : ℝ := (size : ℝ) / 2 with hρdef
    set sx : ℝ := (x : ℝ) - ρ with hsx
    set sy : ℝ := (y : ℝ) - ρ with hsy
    have hsub : (0 : ℝ) ≤ ρ * ρ - (sx * sx + sy * sy) := by linarith [hd]
    have hsq : Real.sqrt (ρ * ρ - (sx * sx + sy * sy)) *
        Real.sqrt (ρ * ρ - (sx * sx + sy * sy)) =
        ρ * ρ - (sx * sx + sy * sy) := Real.mul_self_sqrt hsub
    have hdot : Navball.vec3_dot
        (Navball.vec3_new sx sy
          (Real.sqrt (ρ * ρ - (sx * sx + sy * sy))))
        (Navball.vec3_new sx sy
          (Real.sqrt (ρ * ρ - (sx * sx + sy * sy)))) = ρ * ρ := by
      unfold Navball.vec3_dot Navball.vec3_new
      dsimp only
      rw [hsq]
      ring
    have hlenv : Navball.vec3_length
        (Navball.vec3_new sx sy
          (Real.sqrt (ρ * ρ - (sx * sx + sy * sy)))) = ρ := by
      unfold Navball.vec3_length
      rw [hdot]
      exact Real.sqrt_mul_self hρ.le
    unfold Navball.vec3_normalize
    rw [hlenv, if_pos (by linarith : (0.0001 : ℝ) < ρ)]
    unfold Navball.vec3_length Navball.vec3_dot Navball.vec3_new
    dsimp only
    have hρne : ρ * ρ ≠ 0 := ne_of_gt (mul_pos hρ hρ)
    have hquot : sx / ρ * (sx / ρ) + sy / ρ * (sy / ρ) +
        Real.sqrt (ρ * ρ - (sx * sx + sy * sy)) / ρ *
          (Real.sqrt (ρ * ρ - (sx * sx + sy * sy)) / ρ) =
        (sx * sx + sy * sy +
          Real.sqrt (ρ * ρ - (sx * sx + sy * sy)) *
            Real.sqrt (ρ * ρ - (sx * sx + sy * sy))) / (ρ * ρ) := by
      ring
    rw [hquot, hsq]
    have hone : (sx * sx + sy * sy + (ρ * ρ - (sx * sx + sy * sy))) /
        (ρ * ρ) = 1 := by
      rw [show sx * sx + sy * sy + (ρ * ρ - (sx * sx + sy * sy)) = ρ * ρ by
        ring]
      exact div_self hρne
    rw [hone, Real.sqrt_one]
  · simp at hv

/-- Witness for C7: the center entry of the 2×2 LUT is valid and its sphere
point has norm 1. -/
theorem navball_lut_valid_unit_norm_witness :
    1 ≤ 2 ∧
      Navball.navball_lut_entry 2 1 1 ∈
        (Navball.navball_lut_create 2).entries ∧
      (Navball.navball_lut_entry 2 1 1).valid = true ∧
      Navball.vec3_length (Navball.navball_lut_entry 2 1 1).sphere_point =
        1 := by
  have hmem : Navball.navball_lut_entry 2 1 1 ∈
      (Navball.navball_lut_create 2).entries := by
    simp only [Navball.navball_lut_create]
    exact List.mem_flatMap.mpr ⟨1, List.mem_range.mpr one_lt_two,
      List.mem_map.mpr ⟨1, List.mem_range.mpr one_lt_two, rfl⟩⟩
  have hvalid : (Navball.navball_lut_entry 2 1 1).valid = true := by
    simp only [Navball.navball_lut_entry]
    rw [if_pos]
    · push_cast
      norm_num
  exact ⟨by norm_num, hmem, hvalid,
    navball_lut_valid_unit_norm 2 (by norm_num) _ hmem hvalid⟩

-- Helper facts for the celestial zenith theorem.

theorem celestial_M_PI_pos : (0 : ℝ) < Celestial.M_PI := by
  unfold Celestial.M_PI
  norm_num

theorem celestial_M_PI_lt_pi : Celestial.M_PI < π := by
  unfold Celestial.M_PI
  exact Real.pi_gt_d20

theorem celestial_rotation_matrix_id :
    Celestial.create_rotation_matrix 0 0 0 = ⟨1, 0, 0, 0, 1, 0, 0, 0, 1⟩ := by
  unfold Celestial.create_rotation_matrix Celestial.DEG_TO_RAD Celestial.rotX
    Celestial.rotY Celestial.rotZ Celestial.mat3_mul
  norm_num

/-- C1: a celestial body at azimuth 0°, altitude 90° (zenith) under identity
platform attitude projects onto the widget's vertical center line
(`screen_x = navball_center_x`) with `is_front` true.  The rotation matrix at
`(0,0,0)` is the identity; the body vector is
`(cos(90·M_PI/180)·sin 0, sin(90·M_PI/180), cos(90·M_PI/180)·cos 0)`, whose x
component is exactly 0 and whose z component `cos(M_PI/2)` is strictly
positive because the source's `M_PI` constant is a strictly smaller
approximation of `π` (so the argument stays inside `(-π/2, π/2)`). -/
theorem celestial_zenith_identity_center_front (cx cy r : ℤ) :
    (Celestial.celestial_to_navball_coords 0 90 0 0 0 cx cy r).screen_x =
        cx ∧
      (Celestial.celestial_to_navball_coords 0 90 0 0 0 cx cy r).is_front := by
  have hM1 := celestial_M_PI_pos
  have hM2 := celestial_M_PI_lt_pi
  have hpi := Real.pi_pos
  unfold Celestial.celestial_to_navball_coords Celestial.horizontal_to_vector
    Celestial.mat3_mul_vec3
  rw [celestial_rotation_matrix_id]
  unfold Celestial.DEG_TO_RAD
  dsimp only
  have haz : (0 : ℝ) * Celestial.M_PI / 180 = 0 := by ring
  have hcos : (0 : ℝ) <
      Real.cos (90 * Celestial.M_PI / 180) := by
    apply Real.cos_pos_of_mem_Ioo
    constructor
    · dsimp only
      linarith
    · dsimp only
      linarith
  constructor
  · rw [haz, Real.sin_zero]
    rw [show Real.cos (90 * Celestial.M_PI / 180) * 0 = 0 by ring]
    rw [show (1 : ℝ) * 0 + 0 * Real.sin (90 * Celestial.M_PI / 180) +
        0 * (Real.cos (90 * Celestial.M_PI / 180) * Real.cos 0) = 0 by ring]
    rw [show (0 : ℝ) * (r : ℝ) = 0 by ring, c_trunc_zero]
    ring
  · rw [haz, Real.cos_zero]
    show (0 : ℝ) < 0 * (Real.cos (90 * Celestial.M_PI / 180) *
        Real.sin 0) + 0 * Real.sin (90 * Celestial.M_PI / 180) +
      1 * (Real.cos (90 * Celestial.M_PI / 180) * 1)
    rw [Real.sin_zero]
    have hz : 0 * (Real.cos (90 * Celestial.M_PI / 180) * 0) +
        0 * Real.sin (90 * Celestial.M_PI / 180) +
        1 * (Real.cos (90 * Celestial.M_PI / 180) * 1) =
        Real.cos (90 * Celestial.M_PI / 180) := by ring
    rw [hz]
    exact hcos
